import Mathlib

/-!
# Verification of the attendance server (src/server.js)

Shallow embedding of the session / attendance subsystem of the Express +
MongoDB attendance server. Mongo collections are modelled as Lean lists in
insertion order (`findOne` is `List.find?`, an insert appends, `find` with a
filter is `List.filter`, `.sort (startTime : -1)` is `List.mergeSort` with the
descending comparison). Timestamps are natural numbers of milliseconds since
the Unix epoch. The Express `auth` middleware is modelled by passing
`Option User`: `none` means the bearer token did not resolve to a user, and
every guarded route answers 401 in that case.
-/

namespace Server

/-- A user document, restricted to the fields the attendance routes read
(`req.user._id`, `.name`, `.rollNumber`, `.profileImage`, `.role`). -/
structure User where
  id : Nat
  role : String
  name : String
  rollNumber : String
  profileImage : String
  deriving Repr, DecidableEq

/-- A geolocation pair, as in the `location` subdocuments. -/
structure Location where
  latitude : Int
  longitude : Int
  deriving Repr, DecidableEq

/-- A session document (`SessionSchema`): `endTime` is optional, `active`
defaults to `true` on creation, `startTime` to the creation instant. -/
structure Session where
  sessionId : String
  teacherId : Nat
  subject : String
  location : Location
  startTime : Nat
  endTime : Option Nat
  active : Bool
  deriving Repr, DecidableEq

/-- An attendance document (`AttendanceSchema`), with the denormalized
student name / roll number / profile image snapshot. -/
structure Attendance where
  sessionId : String
  studentId : Nat
  studentName : String
  rollNumber : String
  location : Location
  timestamp : Nat
  profileImage : String
  deriving Repr, DecidableEq

/-- The persistent store: the `sessions` and `attendances` collections,
each in insertion order. -/
structure State where
  sessions : List Session
  attendances : List Attendance
  deriving Repr, DecidableEq

/-- An error response: HTTP status code plus the `error` field of the JSON
body. -/
structure ErrorResp where
  status : Nat
  error : String
  deriving Repr, DecidableEq

/-! ## `Date.prototype.toISOString`

The mark-attendance route answers with `attendance.timestamp.toISOString()`.
We embed the ECMAScript date formatting for non-negative epoch milliseconds:
proleptic Gregorian civil date from the day number (era decomposition over
the 146097-day cycle of 400 years), then `YYYY-MM-DDTHH:mm:ss.sssZ`. -/

/-- Left-pad the decimal rendering of `n` with zeros to width `w`. -/
def padNat (w n : Nat) : String :=
  let s := toString n
  String.mk (List.replicate (w - s.length) '0') ++ s

/-- Civil `(year, month, day)` from a count of days since 1970-01-01. -/
def civilFromDays (days : Nat) : Nat × Nat × Nat :=
  let z := days + 719468
  let era := z / 146097
  let doe := z % 146097
  let yoe := (doe - doe / 1460 + doe / 36524 - doe / 146096) / 365
  let y := yoe + era * 400
  let doy := doe - (365 * yoe + yoe / 4 - yoe / 100)
  let mp := (5 * doy + 2) / 153
  let d := doy - (153 * mp + 2) / 5 + 1
  let m := if mp < 10 then mp + 3 else mp - 9
  (if m ≤ 2 then y + 1 else y, m, d)

/-- `Date.prototype.toISOString` on a timestamp of `ms` milliseconds since
the epoch. -/
def toISOString (ms : Nat) : String :=
  let c := civilFromDays (ms / 86400000)
  let msOfDay := ms % 86400000
  padNat 4 c.1 ++ "-" ++ padNat 2 c.2.1 ++ "-" ++ padNat 2 c.2.2 ++ "T" ++
    padNat 2 (msOfDay / 3600000) ++ ":" ++ padNat 2 (msOfDay % 3600000 / 60000) ++ ":" ++
    padNat 2 (msOfDay % 60000 / 1000) ++ "." ++ padNat 3 (ms % 1000) ++ "Z"

example : toISOString 0 = "1970-01-01T00:00:00.000Z" := by decide
example : toISOString 1700000000000 = "2023-11-14T22:13:20.000Z" := by decide

/-! ## POST /api/student/mark-attendance -/

/-- The Mongo query `{ sessionId, active: true }` of the mark-attendance
route. -/
def activeSessionMatch (sid : String) (s : Session) : Bool :=
  s.sessionId == sid && s.active

/-- The Mongo query `{ sessionId, studentId }` used for the duplicate
check. -/
def pairMatch (sid : String) (uid : Nat) (a : Attendance) : Bool :=
  a.sessionId == sid && a.studentId == uid

/-- The 201 response body of mark-attendance. -/
structure MarkResponse where
  success : Bool
  message : String
  sessionId : String
  subject : String
  date : String
  attendance : Attendance
  deriving Repr, DecidableEq

/-- The `auth` middleware around a state-returning route: a request whose
token does not resolve to a user is answered 401 without reaching the
handler, so the store is untouched. -/
def withAuth {α : Type} (st : State) (u : Option User)
    (handler : User → Except ErrorResp α × State) : Except ErrorResp α × State :=
  match u with
  | none => (.error ⟨401, "Please authenticate."⟩, st)
  | some u => handler u

/-- The authenticated core of `POST /api/student/mark-attendance`: look up
an active session with the given code, reject a duplicate
(sessionId, studentId) pair, otherwise insert a record snapshotting the
caller's name / roll number / profile image with the current timestamp, and
answer 201 with the session's subject and the ISO timestamp. Returns the
response together with the resulting store. -/
def markAttendanceAuth (st : State) (u : User) (sid : String) (loc : Location)
    (now : Nat) : Except ErrorResp MarkResponse × State :=
  match st.sessions.find? (activeSessionMatch sid) with
  | none => (.error ⟨404, "Session not active"⟩, st)
  | some session =>
    match st.attendances.find? (pairMatch sid u.id) with
    | some _ => (.error ⟨400, "Already marked"⟩, st)
    | none =>
      let attendance : Attendance :=
        ⟨sid, u.id, u.name, u.rollNumber, loc, now, u.profileImage⟩
      (.ok ⟨true, "Attendance marked", session.sessionId, session.subject,
          toISOString now, attendance⟩,
        { st with attendances := st.attendances ++ [attendance] })

/-- `POST /api/student/mark-attendance` behind the auth middleware. -/
def markAttendance (st : State) (u : Option User) (sid : String) (loc : Location)
    (now : Nat) : Except ErrorResp MarkResponse × State :=
  withAuth st u fun u => markAttendanceAuth st u sid loc now

/-! ## GET /api/student/attendance-history -/

/-- The JS `Map` built by `attendances.forEach(att =>
attendanceMap.set(att.sessionId, att))` followed by
`attendanceMap.get(sid)`: a left fold in which a later record with the same
session code overwrites an earlier one, so the get returns the last record
carrying `sid`, if any. -/
def attendanceMapGet (atts : List Attendance) (sid : String) : Option Attendance :=
  atts.foldl (fun acc a => if a.sessionId == sid then some a else acc) none

/-- One element of the history response. -/
structure HistoryEntry where
  sessionId : String
  subject : String
  date : Nat
  status : String
  location : Location
  deriving Repr, DecidableEq

/-- The body of `sessions.map(...)` in the history route: the entry built
for one session given the student's attendance records. -/
def historyEntryFor (atts : List Attendance) (s : Session) : HistoryEntry :=
  match attendanceMapGet atts s.sessionId with
  | some a => ⟨s.sessionId, s.subject, a.timestamp, "Present", s.location⟩
  | none => ⟨s.sessionId, s.subject, s.startTime, "Absent", s.location⟩

/-- `Session.find({ active: false }).sort({ startTime: -1 })`: the sessions
a history query ranges over, most recent first. -/
def completedSessionsDesc (st : State) : List Session :=
  (st.sessions.filter (fun s => s.active == false)).mergeSort
    (fun a b => Nat.ble b.startTime a.startTime)

/-- The student's attendance records,
`Attendance.find({ studentId: req.user._id })`. -/
def studentAttendances (st : State) (uid : Nat) : List Attendance :=
  st.attendances.filter (fun a => a.studentId == uid)

/-- The authenticated core of `GET /api/student/attendance-history`: one
entry per completed session, `Present` with the attendance timestamp when
the student has a record under the session's code, else `Absent` with the
session's start time. Read-only. -/
def attendanceHistoryAuth (st : State) (u : User) : List HistoryEntry :=
  (completedSessionsDesc st).map (historyEntryFor (studentAttendances st u.id))

/-- `GET /api/student/attendance-history` behind the auth middleware. -/
def attendanceHistory (st : State) (u : Option User) :
    Except ErrorResp (List HistoryEntry) :=
  match u with
  | none => .error ⟨401, "Please authenticate."⟩
  | some u => .ok (attendanceHistoryAuth st u)

/-! ## POST /api/teacher/start-session -/

/-- The six hex digits `uuidv4().substring(0, 6)` — the first six nibbles of
a version-4 UUID are unconstrained random hex digits, rendered lowercase. -/
def hexDigit (n : Nat) : Char :=
  if n < 10 then Char.ofNat (48 + n) else Char.ofNat (87 + n)

/-- `uuidv4().substring(0, 6).toUpperCase()` with `r` the stream of random
nibbles of the UUID: six uppercase hex characters. -/
def genSessionId (r : Nat → Nat) : String :=
  String.mk (((List.range 6).map fun i => (hexDigit (r i % 16)).toUpper))

/-- The authenticated core of `POST /api/teacher/start-session`:
unconditionally insert a new session with a generated code, the caller as
owner, `active = true`, `startTime = now` and no `endTime`, and answer 201
with the session. No lookup of existing sessions is performed. -/
def startSessionAuth (st : State) (u : User) (subject : String) (loc : Location)
    (r : Nat → Nat) (now : Nat) : Except ErrorResp Session × State :=
  let s : Session := ⟨genSessionId r, u.id, subject, loc, now, none, true⟩
  (.ok s, { st with sessions := st.sessions ++ [s] })

/-- `POST /api/teacher/start-session` behind the auth middleware. -/
def startSession (st : State) (u : Option User) (subject : String) (loc : Location)
    (r : Nat → Nat) (now : Nat) : Except ErrorResp Session × State :=
  withAuth st u fun u => startSessionAuth st u subject loc r now

/-! ## POST /api/teacher/end-session -/

/-- The Mongo query `{ sessionId, teacherId, active: true }` of the
end-session route. -/
def endMatch (tid : Nat) (sid : String) (s : Session) : Bool :=
  s.sessionId == sid && s.teacherId == tid && s.active

/-- `findOneAndUpdate` on the sessions collection: update the first document
matching `endMatch` with `{ active: false, endTime: now }`, returning the
updated document (`new: true`) and the updated collection. -/
def endFirst (tid : Nat) (sid : String) (now : Nat) :
    List Session → Option Session × List Session
  | [] => (none, [])
  | s :: rest =>
    if endMatch tid sid s then
      (some { s with active := false, endTime := some now },
        { s with active := false, endTime := some now } :: rest)
    else
      ((endFirst tid sid now rest).1, s :: (endFirst tid sid now rest).2)

/-- The authenticated core of `POST /api/teacher/end-session`: flip the
caller's matching active session to inactive, stamping `endTime`; 404 if no
such session. -/
def endSessionAuth (st : State) (u : User) (sid : String) (now : Nat) :
    Except ErrorResp Session × State :=
  match (endFirst u.id sid now st.sessions).1 with
  | none => (.error ⟨404, "Session not found"⟩, st)
  | some s' => (.ok s', { st with sessions := (endFirst u.id sid now st.sessions).2 })

/-- `POST /api/teacher/end-session` behind the auth middleware. -/
def endSession (st : State) (u : Option User) (sid : String) (now : Nat) :
    Except ErrorResp Session × State :=
  withAuth st u fun u => endSessionAuth st u sid now

/-! ## GET /api/teacher/session-attendance/:sessionId -/

/-- `GET /api/teacher/session-attendance/:sessionId`: every attendance
record whose `sessionId` equals the path parameter. The route only requires
a valid token; it never compares the caller with the session's owner. -/
def sessionAttendance (st : State) (u : Option User) (sid : String) :
    Except ErrorResp (List Attendance) :=
  match u with
  | none => .error ⟨401, "Please authenticate."⟩
  | some _ => .ok (st.attendances.filter (fun a => a.sessionId == sid))

/-! ## The mutating operations as a transition system -/

/-- A state-mutating request: mark-attendance, start-session or end-session
(the history and listing routes are read-only). -/
inductive Op where
  | mark (u : User) (sid : String) (loc : Location) (now : Nat)
  | start (u : User) (subject : String) (loc : Location) (r : Nat → Nat) (now : Nat)
  | endS (u : User) (sid : String) (now : Nat)

/-- The store after one authenticated request. -/
def applyOp (st : State) : Op → State
  | .mark u sid loc now => (markAttendance st (some u) sid loc now).2
  | .start u subject loc r now => (startSession st (some u) subject loc r now).2
  | .endS u sid now => (endSession st (some u) sid now).2

/-! ## Basic lemmas -/

theorem markAttendanceAuth_sessions (st : State) (u : User) (sid : String)
    (loc : Location) (now : Nat) :
    (markAttendanceAuth st u sid loc now).2.sessions = st.sessions := by
  unfold markAttendanceAuth
  cases st.sessions.find? (activeSessionMatch sid) with
  | none => rfl
  | some session =>
    cases st.attendances.find? (pairMatch sid u.id) with
    | none => rfl
    | some a => rfl

theorem markAttendance_sessions (st : State) (u : Option User) (sid : String)
    (loc : Location) (now : Nat) :
    (markAttendance st u sid loc now).2.sessions = st.sessions := by
  cases u with
  | none => rfl
  | some u => exact markAttendanceAuth_sessions st u sid loc now

/-- The record inserted by a successful mark-attendance call. -/
def newRecord (u : User) (sid : String) (loc : Location) (now : Nat) : Attendance :=
  ⟨sid, u.id, u.name, u.rollNumber, loc, now, u.profileImage⟩

theorem markAttendance_some (st : State) (u : User) (sid : String)
    (loc : Location) (now : Nat) :
    markAttendance st (some u) sid loc now = markAttendanceAuth st u sid loc now := rfl

theorem markAttendance_success (st : State) (u : User) (sid : String)
    (loc : Location) (now : Nat) (sess : Session)
    (hs : st.sessions.find? (activeSessionMatch sid) = some sess)
    (ha : st.attendances.find? (pairMatch sid u.id) = none) :
    markAttendance st (some u) sid loc now =
      (.ok ⟨true, "Attendance marked", sess.sessionId, sess.subject,
          toISOString now, newRecord u sid loc now⟩,
        { st with attendances := st.attendances ++ [newRecord u sid loc now] }) := by
  rw [markAttendance_some]
  unfold markAttendanceAuth
  rw [hs, ha]
  rfl

theorem pairMatch_newRecord (u : User) (sid : String) (loc : Location) (now : Nat) :
    pairMatch sid u.id (newRecord u sid loc now) = true := by
  simp [pairMatch, newRecord]

/-! ## Sample documents used by the witnesses -/

def sampleLoc : Location := ⟨10, 20⟩

def sampleUser : User := ⟨1, "student", "Alice", "R1", "img"⟩

def sampleTeacher : User := ⟨2, "teacher", "Bob", "", "timg"⟩

def sampleSession : Session := ⟨"ABC123", 2, "Math", sampleLoc, 100, none, true⟩

def sampleEnded : Session := ⟨"ZZZ999", 2, "Physics", sampleLoc, 50, some 80, false⟩

def sampleState : State := ⟨[sampleSession], []⟩

/-! ## C1 -/

/-- C1: with an active session under `sid` and no prior record for the pair,
a first `markAttendance` succeeds, an immediately repeated call for the same
(session, student) fails with HTTP 400 "Already marked" leaving the store
untouched, and the store after both calls holds exactly one record for the
pair. -/
theorem mark_twice_same_pair (st : State) (u : User) (sid : String)
    (loc₁ loc₂ : Location) (t₁ t₂ : Nat) (sess : Session)
    (hs : st.sessions.find? (activeSessionMatch sid) = some sess)
    (ha : st.attendances.find? (pairMatch sid u.id) = none) :
    ∃ resp st₁,
      markAttendance st (some u) sid loc₁ t₁ = (.ok resp, st₁) ∧
      markAttendance st₁ (some u) sid loc₂ t₂ =
        (.error ⟨400, "Already marked"⟩, st₁) ∧
      st₁.attendances.countP (pairMatch sid u.id) = 1 := by
  refine ⟨_, _, markAttendance_success st u sid loc₁ t₁ sess hs ha, ?_, ?_⟩
  · rw [markAttendance_some]
    unfold markAttendanceAuth
    have hs' : (st.attendances ++ [newRecord u sid loc₁ t₁]).find? (pairMatch sid u.id) =
        some (newRecord u sid loc₁ t₁) := by
      rw [List.find?_append, ha]
      simp [pairMatch_newRecord]
    simp only [hs, hs']
  · have h0 : st.attendances.countP (pairMatch sid u.id) = 0 :=
      List.countP_eq_zero.mpr (List.find?_eq_none.mp ha)
    simp [List.countP_append, h0, List.countP_cons, pairMatch_newRecord]

/-- Witness for C1 at a concrete store. -/
theorem mark_twice_same_pair_witness :
    ∃ resp st₁,
      markAttendance sampleState (some sampleUser) "ABC123" sampleLoc 200 = (.ok resp, st₁) ∧
      markAttendance st₁ (some sampleUser) "ABC123" sampleLoc 201 =
        (.error ⟨400, "Already marked"⟩, st₁) ∧
      st₁.attendances.countP (pairMatch "ABC123" sampleUser.id) = 1 :=
  mark_twice_same_pair sampleState sampleUser "ABC123" sampleLoc sampleLoc 200 201
    sampleSession (by decide) (by decide)

/-! ## C2 -/

/-- C2: when no stored session has the given code together with
`active = true`, mark-attendance fails with HTTP 404 "Session not active"
and the store is unchanged — no record is written. -/
theorem mark_session_not_active (st : State) (u : User) (sid : String)
    (loc : Location) (now : Nat)
    (h : ∀ s ∈ st.sessions, ¬(s.sessionId = sid ∧ s.active = true)) :
    markAttendance st (some u) sid loc now = (.error ⟨404, "Session not active"⟩, st) := by
  have hf : st.sessions.find? (activeSessionMatch sid) = none := by
    rw [List.find?_eq_none]
    intro s hsmem hb
    simp only [activeSessionMatch, Bool.and_eq_true, beq_iff_eq] at hb
    exact h s hsmem ⟨hb.1, hb.2⟩
  rw [markAttendance_some]
  unfold markAttendanceAuth
  rw [hf]

/-- Witness for C2: the store holds only an ended session under the code. -/
theorem mark_session_not_active_witness :
    markAttendance ⟨[sampleEnded], []⟩ (some sampleUser) "ZZZ999" sampleLoc 300 =
      (.error ⟨404, "Session not active"⟩, ⟨[sampleEnded], []⟩) :=
  mark_session_not_active ⟨[sampleEnded], []⟩ sampleUser "ZZZ999" sampleLoc 300
    (by decide)

/-! ## C5 -/

/-- An uppercase alphanumeric character: a decimal digit or `A`–`Z`. -/
def isUpperAlnum (c : Char) : Bool := c.isDigit || c.isUpper

theorem hexDigit_toUpper_upperAlnum : ∀ m : Fin 16, isUpperAlnum ((hexDigit m.1).toUpper) = true := by
  decide

/-- C5: start-session by an authenticated caller always succeeds, appending
a session whose code is the six generated characters — each an uppercase
alphanumeric character — with `active = true`, `startTime = now` and no
`endTime`, with no inspection of already stored sessions (the store is
universally quantified and only appended to); an unauthenticated call fails
with HTTP 401 and leaves the store unchanged. -/
theorem start_session_spec (st : State) (u : User) (subject : String)
    (loc : Location) (r : Nat → Nat) (now : Nat) :
    startSession st (some u) subject loc r now =
      (.ok ⟨genSessionId r, u.id, subject, loc, now, none, true⟩,
        { st with sessions :=
            st.sessions ++ [⟨genSessionId r, u.id, subject, loc, now, none, true⟩] }) ∧
    (genSessionId r).length = 6 ∧
    ((genSessionId r).data.all isUpperAlnum) = true ∧
    startSession st none subject loc r now = (.error ⟨401, "Please authenticate."⟩, st) := by
  refine ⟨rfl, by simp [genSessionId], ?_, rfl⟩
  have hdata : (genSessionId r).data = (List.range 6).map fun i => (hexDigit (r i % 16)).toUpper := rfl
  rw [hdata, List.all_eq_true]
  intro c hc
  obtain ⟨i, _, rfl⟩ := List.mem_map.mp hc
  exact hexDigit_toUpper_upperAlnum ⟨r i % 16, Nat.mod_lt _ (by omega)⟩

/-! ## C9 -/

/-- A record of the sample student checking in to the sample session. -/
def sampleAtt : Attendance := ⟨"ABC123", 1, "Alice", "R1", sampleLoc, 200, "img"⟩

/-- A record of another student under another session code. -/
def otherAtt : Attendance := ⟨"OTHER0", 3, "Carol", "R3", sampleLoc, 210, "img3"⟩

def sampleStateC9 : State := ⟨[sampleSession], [sampleAtt, otherAtt]⟩

/-- C9: the session-attendance listing checks nothing beyond the token —
even for a caller with the student role who does not own the session, it
answers every record stored under the code, and the answer does not depend
on which user calls. -/
theorem session_attendance_no_ownership_check (st : State) (u : User) (sid : String)
    (s : Session) (_hmem : s ∈ st.sessions) (_hsid : s.sessionId = sid)
    (_hrole : u.role = "student") (_hnotowner : u.id ≠ s.teacherId) :
    sessionAttendance st (some u) sid =
      .ok (st.attendances.filter (fun a => a.sessionId == sid)) ∧
    (∀ u' : User, sessionAttendance st (some u') sid =
      sessionAttendance st (some u) sid) :=
  ⟨rfl, fun _ => rfl⟩

/-- Witness for C9: the student with id 1 lists the records of the session
owned by teacher 2. -/
theorem session_attendance_no_ownership_check_witness :
    sessionAttendance sampleStateC9 (some sampleUser) "ABC123" =
      .ok (sampleStateC9.attendances.filter (fun a => a.sessionId == "ABC123")) :=
  (session_attendance_no_ownership_check sampleStateC9 sampleUser "ABC123"
    sampleSession (by decide) rfl rfl (by decide)).1

/-! ## C6 -/

/-- C6: a successful mark-attendance call answers with the inserted record，
the session's subject and code, and the ISO-8601 rendering of the record's
timestamp; the record snapshots the caller's name, roll number and profile
image as they are at check-in time, and the store gains exactly that
record. -/
theorem mark_response_contract (st : State) (u : User) (sid : String)
    (loc : Location) (now : Nat) (resp : MarkResponse) (st' : State)
    (h : markAttendance st (some u) sid loc now = (.ok resp, st')) :
    resp.attendance = newRecord u sid loc now ∧
    resp.attendance.studentName = u.name ∧
    resp.attendance.rollNumber = u.rollNumber ∧
    resp.attendance.profileImage = u.profileImage ∧
    resp.attendance.studentId = u.id ∧
    (∃ sess, st.sessions.find? (activeSessionMatch sid) = some sess ∧
      resp.subject = sess.subject ∧ resp.sessionId = sess.sessionId) ∧
    resp.date = toISOString resp.attendance.timestamp ∧
    st'.attendances = st.attendances ++ [resp.attendance] := by
  cases hs : st.sessions.find? (activeSessionMatch sid) with
  | none =>
    rw [markAttendance_some] at h
    unfold markAttendanceAuth at h
    rw [hs] at h
    simp at h
  | some sess =>
    cases ha : st.attendances.find? (pairMatch sid u.id) with
    | some a =>
      rw [markAttendance_some] at h
      unfold markAttendanceAuth at h
      rw [hs, ha] at h
      simp at h
    | none =>
      have heq := (markAttendance_success st u sid loc now sess hs ha).symm.trans h
      have h1 := congrArg Prod.fst heq
      have h2 := congrArg Prod.snd heq
      dsimp only at h1 h2
      injection h1 with h3
      subst h3
      subst h2
      exact ⟨rfl, rfl, rfl, rfl, rfl, ⟨sess, rfl, rfl, rfl⟩, rfl, rfl⟩

/-- Witness for C6 at a concrete successful call. -/
theorem mark_response_contract_witness :
    (⟨true, "Attendance marked", "ABC123", "Math", toISOString 200,
        newRecord sampleUser "ABC123" sampleLoc 200⟩ : MarkResponse).attendance =
      newRecord sampleUser "ABC123" sampleLoc 200 ∧
    (newRecord sampleUser "ABC123" sampleLoc 200).studentName = sampleUser.name ∧
    (newRecord sampleUser "ABC123" sampleLoc 200).rollNumber = sampleUser.rollNumber ∧
    (newRecord sampleUser "ABC123" sampleLoc 200).profileImage = sampleUser.profileImage ∧
    (newRecord sampleUser "ABC123" sampleLoc 200).studentId = sampleUser.id ∧
    (∃ sess, sampleState.sessions.find? (activeSessionMatch "ABC123") = some sess ∧
      (⟨true, "Attendance marked", "ABC123", "Math", toISOString 200,
        newRecord sampleUser "ABC123" sampleLoc 200⟩ : MarkResponse).subject = sess.subject ∧
      (⟨true, "Attendance marked", "ABC123", "Math", toISOString 200,
        newRecord sampleUser "ABC123" sampleLoc 200⟩ : MarkResponse).sessionId = sess.sessionId) ∧
    (⟨true, "Attendance marked", "ABC123", "Math", toISOString 200,
        newRecord sampleUser "ABC123" sampleLoc 200⟩ : MarkResponse).date =
      toISOString (newRecord sampleUser "ABC123" sampleLoc 200).timestamp ∧
    (⟨[sampleSession], [newRecord sampleUser "ABC123" sampleLoc 200]⟩ : State).attendances =
      sampleState.attendances ++ [newRecord sampleUser "ABC123" sampleLoc 200] :=
  mark_response_contract sampleState sampleUser "ABC123" sampleLoc 200 _ _ rfl

/-! ## C8 -/

theorem endSession_some (st : State) (u : User) (sid : String) (now : Nat) :
    endSession st (some u) sid now = endSessionAuth st u sid now := rfl

theorem markAttendanceAuth_err_or (st : State) (u : User) (sid : String)
    (loc : Location) (now : Nat) :
    (∃ resp, (markAttendanceAuth st u sid loc now).1 = .ok resp) ∨
    (markAttendanceAuth st u sid loc now).2 = st := by
  unfold markAttendanceAuth
  cases st.sessions.find? (activeSessionMatch sid) with
  | none => exact Or.inr rfl
  | some sess =>
    cases st.attendances.find? (pairMatch sid u.id) with
    | some a => exact Or.inr rfl
    | none => exact Or.inl ⟨_, rfl⟩

theorem endSessionAuth_err_or (st : State) (u : User) (sid : String) (now : Nat) :
    (∃ s', (endSessionAuth st u sid now).1 = .ok s') ∨
    (endSessionAuth st u sid now).2 = st := by
  unfold endSessionAuth
  cases (endFirst u.id sid now st.sessions).1 with
  | none => exact Or.inr rfl
  | some s' => exact Or.inl ⟨_, rfl⟩

/-- C8: whenever mark-attendance, end-session or start-session answers an
error (401 unauthenticated, 404 session not active / not found, 400 already
marked), the store it returns is exactly the store it was called with — no
partial write occurs. -/
theorem error_leaves_state_unchanged (st : State) (u : Option User) (sid : String)
    (loc : Location) (subject : String) (r : Nat → Nat) (now : Nat) :
    (∀ e, (markAttendance st u sid loc now).1 = .error e →
      (markAttendance st u sid loc now).2 = st) ∧
    (∀ e, (endSession st u sid now).1 = .error e → (endSession st u sid now).2 = st) ∧
    (∀ e, (startSession st u subject loc r now).1 = .error e →
      (startSession st u subject loc r now).2 = st) := by
  cases u with
  | none => exact ⟨fun _ _ => rfl, fun _ _ => rfl, fun _ _ => rfl⟩
  | some u =>
    refine ⟨?_, ?_, ?_⟩
    · intro e he
      rw [markAttendance_some] at he ⊢
      rcases markAttendanceAuth_err_or st u sid loc now with ⟨resp, hok⟩ | hst
      · rw [hok] at he; simp at he
      · exact hst
    · intro e he
      rw [endSession_some] at he ⊢
      rcases endSessionAuth_err_or st u sid now with ⟨s', hok⟩ | hst
      · rw [hok] at he; simp at he
      · exact hst
    · intro e he
      simp [startSession, withAuth, startSessionAuth] at he

/-- Witness for C8: the three routes at concrete failing calls. -/
theorem error_leaves_state_unchanged_witness :
    (markAttendance sampleState (some sampleUser) "NOPE00" sampleLoc 9).2 = sampleState ∧
    (endSession sampleState (some sampleUser) "NOPE00" 9).2 = sampleState ∧
    (markAttendance sampleState none "ABC123" sampleLoc 9).2 = sampleState :=
  ⟨(error_leaves_state_unchanged sampleState (some sampleUser) "NOPE00" sampleLoc "Math"
      (fun i => i) 9).1 ⟨404, "Session not active"⟩ rfl,
   (error_leaves_state_unchanged sampleState (some sampleUser) "NOPE00" sampleLoc "Math"
      (fun i => i) 9).2.1 ⟨404, "Session not found"⟩ rfl,
   (error_leaves_state_unchanged sampleState none "ABC123" sampleLoc "Math"
      (fun i => i) 9).1 ⟨401, "Please authenticate."⟩ rfl⟩

/-! ## Structure of `endFirst` -/

theorem endFirst_fst_eq_none_iff (tid : Nat) (sid : String) (now : Nat) (l : List Session) :
    (endFirst tid sid now l).1 = none ↔ ∀ s ∈ l, endMatch tid sid s = false := by
  induction l with
  | nil => simp [endFirst]
  | cons a rest ih =>
    unfold endFirst
    by_cases h : endMatch tid sid a
    · simp [h]
    · rw [if_neg h]
      simp only [List.mem_cons]
      constructor
      · intro h1 s hs
        rcases hs with rfl | hs'
        · simpa using h
        · exact ih.mp h1 s hs'
      · intro h1
        exact ih.mpr (fun s hs => h1 s (Or.inr hs))

theorem endFirst_length (tid : Nat) (sid : String) (now : Nat) :
    ∀ l : List Session, (endFirst tid sid now l).2.length = l.length := by
  intro l
  induction l with
  | nil => rfl
  | cons a rest ih =>
    unfold endFirst
    by_cases h : endMatch tid sid a
    · rw [if_pos h]; simp
    · rw [if_neg h]; simp [ih]

theorem endFirst_decomp (tid : Nat) (sid : String) (now : Nat) :
    ∀ (l : List Session) (s' : Session), (endFirst tid sid now l).1 = some s' →
      ∃ l1 s l2, l = l1 ++ s :: l2 ∧ (∀ x ∈ l1, endMatch tid sid x = false) ∧
        endMatch tid sid s = true ∧
        s' = { s with active := false, endTime := some now } ∧
        (endFirst tid sid now l).2 = l1 ++ s' :: l2 := by
  intro l
  induction l with
  | nil => intro s' h; simp [endFirst] at h
  | cons a rest ih =>
    intro s' h
    by_cases ha : endMatch tid sid a
    · unfold endFirst at h
      rw [if_pos ha] at h
      have hs' : { a with active := false, endTime := some now } = s' := Option.some.inj h
      refine ⟨[], a, rest, rfl, by simp, ha, hs'.symm, ?_⟩
      unfold endFirst
      rw [if_pos ha, ← hs']
      rfl
    · unfold endFirst at h
      rw [if_neg ha] at h
      obtain ⟨l1, s, l2, hl, hl1, hs, hs', hsnd⟩ := ih s' h
      refine ⟨a :: l1, s, l2, by rw [hl]; rfl, ?_, hs, hs', ?_⟩
      · intro x hx
        rcases List.mem_cons.mp hx with rfl | hx'
        · simpa using ha
        · exact hl1 x hx'
      · unfold endFirst
        rw [if_neg ha]
        simpa using hsnd

theorem endFirst_getElem? (tid : Nat) (sid : String) (now : Nat) :
    ∀ (l : List Session) (i : Nat) (old : Session), l[i]? = some old →
      ∃ new, ((endFirst tid sid now l).2)[i]? = some new ∧
        (new = old ∨ (endMatch tid sid old = true ∧
          new = { old with active := false, endTime := some now })) := by
  intro l
  induction l with
  | nil => intro i old h; simp at h
  | cons a rest ih =>
    intro i old h
    by_cases ha : endMatch tid sid a
    · unfold endFirst
      rw [if_pos ha]
      cases i with
      | zero =>
        rw [List.getElem?_cons_zero] at h
        cases Option.some.inj h
        exact ⟨_, by simp, Or.inr ⟨ha, rfl⟩⟩
      | succ n =>
        rw [List.getElem?_cons_succ] at h
        exact ⟨old, by simpa using h, Or.inl rfl⟩
    · unfold endFirst
      rw [if_neg ha]
      cases i with
      | zero =>
        rw [List.getElem?_cons_zero] at h
        cases Option.some.inj h
        exact ⟨a, by simp, Or.inl rfl⟩
      | succ n =>
        obtain ⟨new, h1, h2⟩ := ih n old (by simpa using h)
        exact ⟨new, by simpa using h1, h2⟩

/-! ## C4 -/

/-- C4: end-session succeeds exactly when the store has a session with the
requested code, owned by the caller, with `active = true`. When moreover
exactly one such session exists, the call flips precisely that session to
`active = false` with `endTime` stamped by the first call's clock, answers
it, and a second identical call fails with HTTP 404 "Session not found",
leaving the store exactly as after the first call. -/
theorem end_session_spec (st : State) (u : User) (sid : String) (t₁ t₂ : Nat)
    (hone : st.sessions.countP (endMatch u.id sid) = 1) :
    (∀ st₂ : State, (∃ s₀, (endSession st₂ (some u) sid t₁).1 = .ok s₀) ↔
      ∃ s ∈ st₂.sessions, endMatch u.id sid s = true) ∧
    ∃ s' st₁ l1 s l2,
      endSession st (some u) sid t₁ = (.ok s', st₁) ∧
      st.sessions = l1 ++ s :: l2 ∧
      st₁ = { st with sessions := l1 ++ s' :: l2 } ∧
      s' = { s with active := false, endTime := some t₁ } ∧
      s.active = true ∧ s.sessionId = sid ∧ s.teacherId = u.id ∧
      endSession st₁ (some u) sid t₂ = (.error ⟨404, "Session not found"⟩, st₁) := by
  constructor
  · intro st₂
    rw [endSession_some]
    unfold endSessionAuth
    cases hf : (endFirst u.id sid t₁ st₂.sessions).1 with
    | none =>
      constructor
      · rintro ⟨s₀, hs₀⟩
        simp at hs₀
      · rintro ⟨s, hmem, hsm⟩
        have hfalse := (endFirst_fst_eq_none_iff u.id sid t₁ st₂.sessions).mp hf s hmem
        rw [hsm] at hfalse
        exact absurd hfalse (by simp)
    | some s₁ =>
      constructor
      · intro _
        obtain ⟨l1, s, l2, hl, _, hs, _, _⟩ := endFirst_decomp u.id sid t₁ st₂.sessions s₁ hf
        exact ⟨s, by rw [hl]; exact List.mem_append_right _ (List.mem_cons_self s l2), hs⟩
      · intro _
        exact ⟨s₁, rfl⟩
  · have hex : ∃ s ∈ st.sessions, endMatch u.id sid s = true := by
      by_contra hno
      push_neg at hno
      have h0 : st.sessions.countP (endMatch u.id sid) = 0 :=
        List.countP_eq_zero.mpr (fun a ha => by simp [hno a ha])
      omega
    cases hf : (endFirst u.id sid t₁ st.sessions).1 with
    | none =>
      exfalso
      obtain ⟨s, hmem, hsm⟩ := hex
      have hfalse := (endFirst_fst_eq_none_iff u.id sid t₁ st.sessions).mp hf s hmem
      simp [hfalse] at hsm
    | some s' =>
      obtain ⟨l1, s, l2, hl, hl1, hs, hs', hsnd⟩ := endFirst_decomp u.id sid t₁ st.sessions s' hf
      obtain ⟨⟨hssid, hstid⟩, hsact⟩ :
          (s.sessionId = sid ∧ s.teacherId = u.id) ∧ s.active = true := by
        simpa [endMatch, Bool.and_eq_true, beq_iff_eq] using hs
      have hc1 : l1.countP (endMatch u.id sid) = 0 :=
        List.countP_eq_zero.mpr (fun a ha => by simp [hl1 a ha])
      have hc2 : l2.countP (endMatch u.id sid) = 0 := by
        have hcnt : (l1 ++ s :: l2).countP (endMatch u.id sid) = 1 := by
          rw [← hl]; exact hone
        rw [List.countP_append, List.countP_cons, hs] at hcnt
        simp at hcnt
        omega
      refine ⟨s', { st with sessions := l1 ++ s' :: l2 }, l1, s, l2, ?_, hl, rfl, hs',
        hsact, hssid, hstid, ?_⟩
      · rw [endSession_some]
        unfold endSessionAuth
        rw [hf, hsnd]
      · rw [endSession_some]
        unfold endSessionAuth
        have hnone : (endFirst u.id sid t₂
            ({ st with sessions := l1 ++ s' :: l2 } : State).sessions).1 = none := by
          rw [endFirst_fst_eq_none_iff]
          intro x hx
          rcases List.mem_append.mp hx with hx1 | hx2
          · exact hl1 x hx1
          · rcases List.mem_cons.mp hx2 with rfl | hx3
            · simp [endMatch, hs']
            · simpa using List.countP_eq_zero.mp hc2 x hx3
        rw [hnone]

/-- Witness for C4: teacher 2 ends the sample session twice. -/
theorem end_session_spec_witness :
    ∃ s' st₁ l1 s l2,
      endSession sampleState (some sampleTeacher) "ABC123" 500 = (.ok s', st₁) ∧
      sampleState.sessions = l1 ++ s :: l2 ∧
      st₁ = { sampleState with sessions := l1 ++ s' :: l2 } ∧
      s' = { s with active := false, endTime := some 500 } ∧
      s.active = true ∧ s.sessionId = "ABC123" ∧ s.teacherId = sampleTeacher.id ∧
      endSession st₁ (some sampleTeacher) "ABC123" 600 =
        (.error ⟨404, "Session not found"⟩, st₁) :=
  (end_session_spec sampleState sampleTeacher "ABC123" 500 600 (by decide)).2

/-! ## C7 -/

theorem endFirst_none_snd (tid : Nat) (sid : String) (now : Nat) :
    ∀ l : List Session, (∀ s ∈ l, endMatch tid sid s = false) →
      (endFirst tid sid now l).2 = l := by
  intro l
  induction l with
  | nil => intro _; rfl
  | cons a rest ih =>
    intro h
    have ha : endMatch tid sid a = false := h a (List.mem_cons_self a rest)
    unfold endFirst
    rw [if_neg (by simp [ha])]
    rw [ih (fun s hs => h s (List.mem_cons_of_mem a hs))]

theorem endSessionAuth_sessions (st : State) (u : User) (sid : String) (now : Nat) :
    (endSessionAuth st u sid now).2.sessions = (endFirst u.id sid now st.sessions).2 := by
  unfold endSessionAuth
  cases hf : (endFirst u.id sid now st.sessions).1 with
  | some s' => rfl
  | none =>
    exact (endFirst_none_snd u.id sid now st.sessions
      ((endFirst_fst_eq_none_iff u.id sid now st.sessions).mp hf)).symm

/-- C7: the only transition a stored session can undergo is
Active → Ended. After any one of the three mutating operations: the
collection never shrinks; every already stored session is either untouched
or — only under an end-session request naming its code and issued by its
owning teacher, and only if it was active — flipped to `active = false`
with `endTime` stamped (so an ended session is never reactivated, and no
session is deleted); and any newly appended session starts with
`active = true` and no `endTime`. -/
theorem session_state_machine (st : State) (op : Op) :
    st.sessions.length ≤ (applyOp st op).sessions.length ∧
    (∀ (i : Nat) (old : Session), st.sessions[i]? = some old →
      ∃ new, (applyOp st op).sessions[i]? = some new ∧
        (new = old ∨ (old.active = true ∧ ∃ uop sidop t, op = Op.endS uop sidop t ∧
          old.teacherId = uop.id ∧ old.sessionId = sidop ∧
          new = { old with active := false, endTime := some t }))) ∧
    (∀ (j : Nat) (new : Session), st.sessions.length ≤ j →
      (applyOp st op).sessions[j]? = some new →
      new.active = true ∧ new.endTime = none) := by
  cases op with
  | mark u sid loc now =>
    have hEq : (applyOp st (Op.mark u sid loc now)).sessions = st.sessions :=
      markAttendance_sessions st (some u) sid loc now
    refine ⟨by rw [hEq], ?_, ?_⟩
    · intro i old h
      exact ⟨old, by rw [hEq]; exact h, Or.inl rfl⟩
    · intro j new hj hnew
      rw [hEq, List.getElem?_eq_none hj] at hnew
      exact absurd hnew (by simp)
  | start u subject loc r now =>
    have hEq : (applyOp st (Op.start u subject loc r now)).sessions =
        st.sessions ++ [⟨genSessionId r, u.id, subject, loc, now, none, true⟩] := rfl
    refine ⟨by rw [hEq]; simp, ?_, ?_⟩
    · intro i old h
      have hi : i < st.sessions.length := by
        by_contra hge
        rw [List.getElem?_eq_none (by omega)] at h
        exact absurd h (by simp)
      refine ⟨old, ?_, Or.inl rfl⟩
      rw [hEq, List.getElem?_append_left hi]
      exact h
    · intro j new hj hnew
      rw [hEq] at hnew
      rcases Nat.lt_or_ge j (st.sessions.length + 1) with hlt | hge
      · have hj' : j = st.sessions.length := by omega
        subst hj'
        rw [List.getElem?_append_right (by omega)] at hnew
        simp at hnew
        rw [← hnew]
        exact ⟨rfl, rfl⟩
      · rw [List.getElem?_eq_none (by simp; omega)] at hnew
        exact absurd hnew (by simp)
  | endS u sid t =>
    have hEq : (applyOp st (Op.endS u sid t)).sessions =
        (endFirst u.id sid t st.sessions).2 := endSessionAuth_sessions st u sid t
    refine ⟨by rw [hEq, endFirst_length], ?_, ?_⟩
    · intro i old h
      obtain ⟨new, h1, h2⟩ := endFirst_getElem? u.id sid t st.sessions i old h
      refine ⟨new, by rw [hEq]; exact h1, ?_⟩
      rcases h2 with rfl | ⟨hm, rfl⟩
      · exact Or.inl rfl
      · obtain ⟨⟨hsid, htid⟩, hact⟩ :
            (old.sessionId = sid ∧ old.teacherId = u.id) ∧ old.active = true := by
          simpa [endMatch, Bool.and_eq_true, beq_iff_eq] using hm
        exact Or.inr ⟨hact, u, sid, t, rfl, htid, hsid, rfl⟩
    · intro j new hj hnew
      rw [hEq, List.getElem?_eq_none (by rw [endFirst_length]; exact hj)] at hnew
      exact absurd hnew (by simp)

/-- Witness for C7: ending the sample session flips exactly its `active`
flag and stamps its `endTime`. -/
theorem session_state_machine_witness :
    ∃ new, (applyOp sampleState (Op.endS sampleTeacher "ABC123" 700)).sessions[0]? =
        some new ∧
      (new = sampleSession ∨ (sampleSession.active = true ∧
        ∃ uop sidop t, Op.endS sampleTeacher "ABC123" 700 = Op.endS uop sidop t ∧
          sampleSession.teacherId = uop.id ∧ sampleSession.sessionId = sidop ∧
          new = { sampleSession with active := false, endTime := some t })) :=
  (session_state_machine sampleState (Op.endS sampleTeacher "ABC123" 700)).2.1 0
    sampleSession rfl

/-! ## Structure of the history join -/

theorem attendanceMapGet_eq_reverse_find? (sid : String) (atts : List Attendance) :
    attendanceMapGet atts sid = atts.reverse.find? (fun a => a.sessionId == sid) := by
  suffices h : ∀ (l : List Attendance) (acc : Option Attendance),
      l.foldl (fun acc a => if a.sessionId == sid then some a else acc) acc =
        (l.reverse.find? (fun a => a.sessionId == sid)).or acc by
    simpa [attendanceMapGet, Option.or_none] using h atts none
  intro l
  induction l with
  | nil => intro acc; simp
  | cons a rest ih =>
    intro acc
    simp only [List.foldl_cons, List.reverse_cons, List.find?_append]
    rw [ih]
    have hsingle : (List.find? (fun x => x.sessionId == sid) [a]).or acc =
        (if a.sessionId == sid then some a else acc) := by
      by_cases hpa : a.sessionId == sid
      · simp [hpa]
      · simp [List.find?, hpa]
    rw [← hsingle, Option.or_assoc]

theorem getLast?_cons_or {α : Type} (a : α) (l : List α) :
    (a :: l).getLast? = l.getLast?.or (some a) := by
  induction l generalizing a with
  | nil => rfl
  | cons b rest ih =>
    rw [List.getLast?_cons_cons, ih b]
    cases hr : rest.getLast? <;> simp

theorem reverse_find?_eq_getLast?_filter {α : Type} (p : α → Bool) :
    ∀ l : List α, l.reverse.find? p = (l.filter p).getLast? := by
  intro l
  induction l with
  | nil => rfl
  | cons a rest ih =>
    rw [List.reverse_cons, List.find?_append, ih, List.filter_cons]
    by_cases hpa : p a
    · rw [if_pos hpa, getLast?_cons_or]
      simp [List.find?, hpa]
    · rw [if_neg hpa]
      simp [List.find?, hpa, Option.or_none]

theorem attendanceMapGet_eq_none_iff (atts : List Attendance) (sid : String) :
    attendanceMapGet atts sid = none ↔ ∀ a ∈ atts, ¬(a.sessionId = sid) := by
  rw [attendanceMapGet_eq_reverse_find?, List.find?_eq_none]
  simp [List.mem_reverse]

theorem attendanceMapGet_some (atts : List Attendance) (sid : String) (a : Attendance)
    (h : attendanceMapGet atts sid = some a) : a ∈ atts ∧ a.sessionId = sid := by
  rw [attendanceMapGet_eq_reverse_find?] at h
  refine ⟨List.mem_reverse.mp (List.mem_of_find?_eq_some h), ?_⟩
  simpa using List.find?_some h

theorem mem_attendanceHistory (st : State) (u : User) (s : Session)
    (hmem : s ∈ st.sessions) (hact : s.active = false) :
    historyEntryFor (studentAttendances st u.id) s ∈ attendanceHistoryAuth st u := by
  unfold attendanceHistoryAuth
  apply List.mem_map_of_mem
  unfold completedSessionsDesc
  rw [List.mem_mergeSort]
  exact List.mem_filter.mpr ⟨hmem, by simp [hact]⟩

/-! ## C3 -/

/-- C3: the history answer is one entry per session stored with
`active = false` (a permutation of exactly that filtered collection feeds
the map, so active sessions are excluded and the lengths agree), the feed is
sorted by `startTime` descending, each entry carries the session's code,
subject and location, is `Present` dated by an attendance timestamp when the
student holds a record under the session's code and `Absent` dated by the
session's start time otherwise; a student with no records gets every entry
`Absent`. -/
theorem attendance_history_spec (st : State) (u : User) :
    attendanceHistory st (some u) = .ok (attendanceHistoryAuth st u) ∧
    attendanceHistoryAuth st u =
      (completedSessionsDesc st).map (historyEntryFor (studentAttendances st u.id)) ∧
    (completedSessionsDesc st).Perm
      (st.sessions.filter (fun s => s.active == false)) ∧
    List.Pairwise (fun a b : Session => b.startTime ≤ a.startTime)
      (completedSessionsDesc st) ∧
    (attendanceHistoryAuth st u).length =
      (st.sessions.filter (fun s => s.active == false)).length ∧
    (∀ s : Session,
      (historyEntryFor (studentAttendances st u.id) s).sessionId = s.sessionId ∧
      (historyEntryFor (studentAttendances st u.id) s).subject = s.subject ∧
      (historyEntryFor (studentAttendances st u.id) s).location = s.location ∧
      ((∃ a ∈ studentAttendances st u.id, a.sessionId = s.sessionId) →
        (historyEntryFor (studentAttendances st u.id) s).status = "Present" ∧
        ∃ a ∈ studentAttendances st u.id, a.sessionId = s.sessionId ∧
          (historyEntryFor (studentAttendances st u.id) s).date = a.timestamp) ∧
      ((∀ a ∈ studentAttendances st u.id, a.sessionId ≠ s.sessionId) →
        (historyEntryFor (studentAttendances st u.id) s).status = "Absent" ∧
        (historyEntryFor (studentAttendances st u.id) s).date = s.startTime)) ∧
    (studentAttendances st u.id = [] →
      ∀ e ∈ attendanceHistoryAuth st u, e.status = "Absent") := by
  refine ⟨rfl, rfl, List.mergeSort_perm _ _, ?_, ?_, ?_, ?_⟩
  · have hsorted := @List.sorted_mergeSort Session
      (fun a b : Session => Nat.ble b.startTime a.startTime)
      (fun a b c hab hbc => by
        simp only [Nat.ble_eq] at hab hbc ⊢
        omega)
      (fun a b => by
        rcases Nat.le_total b.startTime a.startTime with h | h <;>
          simp [Nat.ble_eq, h])
      (st.sessions.filter (fun s => s.active == false))
    exact hsorted.imp (fun hab => Nat.le_of_ble_eq_true hab)
  · simp [attendanceHistoryAuth, completedSessionsDesc]
  · intro s
    cases hm : attendanceMapGet (studentAttendances st u.id) s.sessionId with
    | none =>
      have hnone := (attendanceMapGet_eq_none_iff (studentAttendances st u.id)
        s.sessionId).mp hm
      have he : historyEntryFor (studentAttendances st u.id) s =
          ⟨s.sessionId, s.subject, s.startTime, "Absent", s.location⟩ := by
        unfold historyEntryFor
        rw [hm]
      refine ⟨by rw [he], by rw [he], by rw [he], ?_, fun _ => ⟨by rw [he], by rw [he]⟩⟩
      rintro ⟨a, hamem, hacode⟩
      exact absurd hacode (hnone a hamem)
    | some a =>
      obtain ⟨hamem, hacode⟩ := attendanceMapGet_some _ _ _ hm
      have he : historyEntryFor (studentAttendances st u.id) s =
          ⟨s.sessionId, s.subject, a.timestamp, "Present", s.location⟩ := by
        unfold historyEntryFor
        rw [hm]
      refine ⟨by rw [he], by rw [he], by rw [he],
        fun _ => ⟨by rw [he], a, hamem, hacode, by rw [he]⟩, ?_⟩
      intro hall
      exact absurd hacode (hall a hamem)
  · intro hnil e he
    unfold attendanceHistoryAuth at he
    obtain ⟨s, _, rfl⟩ := List.mem_map.mp he
    rw [hnil]
    rfl

/-! ## C10 -/

/-- Ended sessions sharing the code `DUP000` under two different teachers. -/
def dupA : Session := ⟨"DUP000", 2, "Chem", sampleLoc, 10, some 20, false⟩

def dupB : Session := ⟨"DUP000", 5, "Bio", sampleLoc, 30, some 40, false⟩

/-- Two records of the sample student, both under code `DUP000`. -/
def dupAtt1 : Attendance := ⟨"DUP000", 1, "Alice", "R1", sampleLoc, 11, "img"⟩

def dupAtt2 : Attendance := ⟨"DUP000", 1, "Alice", "R1", sampleLoc, 31, "img"⟩

def dupState : State := ⟨[dupA, dupB], [dupAtt1, dupAtt2]⟩

/-- C10: the history join keys attendance by session code alone. When two
ended sessions share a code and the student holds a record under it, both
history entries are `Present` and dated by the same attendance timestamp —
that of the last record under the code in insertion order (the survivor of
the JS `Map.set` loop). -/
theorem history_join_by_code (st : State) (u : User) (s₁ s₂ : Session) (a : Attendance)
    (h₁ : s₁ ∈ st.sessions) (h₁a : s₁.active = false)
    (h₂ : s₂ ∈ st.sessions) (h₂a : s₂.active = false)
    (hcode : s₂.sessionId = s₁.sessionId)
    (hlast : ((studentAttendances st u.id).filter
      (fun x => x.sessionId == s₁.sessionId)).getLast? = some a) :
    historyEntryFor (studentAttendances st u.id) s₁ =
      ⟨s₁.sessionId, s₁.subject, a.timestamp, "Present", s₁.location⟩ ∧
    historyEntryFor (studentAttendances st u.id) s₂ =
      ⟨s₂.sessionId, s₂.subject, a.timestamp, "Present", s₂.location⟩ ∧
    (historyEntryFor (studentAttendances st u.id) s₁).date =
      (historyEntryFor (studentAttendances st u.id) s₂).date ∧
    historyEntryFor (studentAttendances st u.id) s₁ ∈ attendanceHistoryAuth st u ∧
    historyEntryFor (studentAttendances st u.id) s₂ ∈ attendanceHistoryAuth st u := by
  have hget : attendanceMapGet (studentAttendances st u.id) s₁.sessionId = some a := by
    rw [attendanceMapGet_eq_reverse_find?, reverse_find?_eq_getLast?_filter]
    exact hlast
  have e₁ : historyEntryFor (studentAttendances st u.id) s₁ =
      ⟨s₁.sessionId, s₁.subject, a.timestamp, "Present", s₁.location⟩ := by
    unfold historyEntryFor
    rw [hget]
  have e₂ : historyEntryFor (studentAttendances st u.id) s₂ =
      ⟨s₂.sessionId, s₂.subject, a.timestamp, "Present", s₂.location⟩ := by
    unfold historyEntryFor
    rw [hcode, hget]
  exact ⟨e₁, e₂, by rw [e₁, e₂], mem_attendanceHistory st u s₁ h₁ h₁a,
    mem_attendanceHistory st u s₂ h₂ h₂a⟩

/-- Witness for C10 at the duplicate-code store: both entries report
`Present` dated 31, the timestamp of the later of the two records. -/
theorem history_join_by_code_witness :
    historyEntryFor (studentAttendances dupState sampleUser.id) dupA =
      ⟨dupA.sessionId, dupA.subject, dupAtt2.timestamp, "Present", dupA.location⟩ ∧
    historyEntryFor (studentAttendances dupState sampleUser.id) dupB =
      ⟨dupB.sessionId, dupB.subject, dupAtt2.timestamp, "Present", dupB.location⟩ ∧
    (historyEntryFor (studentAttendances dupState sampleUser.id) dupA).date =
      (historyEntryFor (studentAttendances dupState sampleUser.id) dupB).date ∧
    historyEntryFor (studentAttendances dupState sampleUser.id) dupA ∈
      attendanceHistoryAuth dupState sampleUser ∧
    historyEntryFor (studentAttendances dupState sampleUser.id) dupB ∈
      attendanceHistoryAuth dupState sampleUser :=
  history_join_by_code dupState sampleUser dupA dupB dupAtt2 (by decide) rfl
    (by decide) rfl rfl (by decide)

/-- Witness exercising C3 at the duplicate-code store. -/
theorem attendance_history_spec_witness :
    attendanceHistory dupState (some sampleUser) =
      .ok (attendanceHistoryAuth dupState sampleUser) ∧
    (completedSessionsDesc dupState).Perm
      (dupState.sessions.filter (fun s => s.active == false)) :=
  ⟨(attendance_history_spec dupState sampleUser).1,
   (attendance_history_spec dupState sampleUser).2.2.1⟩

end Server
